import Mathlib

/-!
Verification of the rule-based chatbot core of the carbon-calculator
repository (`src/intelligent-chatbot.js`): intent classification, entity
extraction, the conversation context store, response dispatch and the
top-level message pipeline, shallowly embedded over `List Char` strings
with exact rational arithmetic for the confidence scores.
-/

set_option maxHeartbeats 1000000
set_option linter.unusedVariables false

namespace Chatbot

/-- Strings are modelled as lists of characters. -/
abbrev Str := List Char

/-- Shorthand turning a Lean string literal into the character-list model. -/
def str (s : String) : Str := s.data

/-- JS `String.prototype.toLowerCase`, character by character. -/
def lowerStr (s : Str) : Str := s.map Char.toLower

/-- The whitespace characters relevant to this model (JS `\s` on the
ASCII inputs the chatbot manipulates). -/
def isWs (c : Char) : Bool := c = ' ' || c = '\t' || c = '\n' || c = '\r'

/-- JS `String.prototype.trim`: drop whitespace from both ends. -/
def trimStr (s : Str) : Str :=
  ((s.dropWhile isWs).reverse.dropWhile isWs).reverse

/-- JS `split(' ')` with a single-space separator: empty chunks are kept
and the result is never empty. -/
def splitSp : Str → List Str
  | [] => [[]]
  | c :: rest =>
      let r := splitSp rest
      if c = ' ' then [] :: r
      else (c :: r.headD []) :: r.tail

/-- Inverse of `splitSp`: glue chunks back with single spaces. -/
def joinSp : List Str → Str
  | [] => []
  | [w] => w
  | w :: ws => w ++ ' ' :: joinSp ws

/-- `isPre n h`: `n` is a prefix of `h` (JS `startsWith`). -/
def isPre : Str → Str → Bool
  | [], _ => true
  | _ :: _, [] => false
  | c :: cs, d :: ds => c = d && isPre cs ds

/-- JS `String.prototype.includes`: `needle` occurs contiguously in `hay`. -/
def includesStr : Str → Str → Bool
  | [], needle => needle.isEmpty
  | c :: t, needle => isPre needle (c :: t) || includesStr t needle

/-- Number of space characters in a string. -/
def countSp (l : Str) : Nat := (l.filter (fun c => c = ' ')).length

/-- An Intent as produced by `IntentClassifier.classify`: a name, a
confidence, and the raw score of every intent in the keyword table. -/
structure Intent where
  name : Str
  confidence : ℚ
  scores : List (Str × Nat)
deriving DecidableEq

/-- The keyword list of the `greeting` intent. The full table below is
the effective keyword table of `IntentClassifier`: the JS object literal
repeats several keys; per JS semantics a repeated key keeps its first
position but its last assigned value, so `industry_specific` here carries
the second list from the source and the other repeated keys keep their
(identical) lists. Order is the object's insertion order, which drives
`Object.entries` in `classify`. -/
def greetingKeywords : List Str :=
  [str "hello", str "hi", str "hey", str "good morning", str "good afternoon",
   str "good evening", str "greetings", str "welcome", str "start", str "begin",
   str "sup", str "howdy"]

/-- The non-greeting rows of the keyword table, in object insertion order. -/
def intentsTail : List (Str × List Str) :=
  [ (str "goodbye",
      [str "bye", str "goodbye", str "see you", str "farewell", str "exit",
       str "quit", str "leave", str "thank you", str "thanks", str "done"]),
    (str "basic_concepts",
      [str "what is", str "define", str "explain", str "meaning of",
       str "carbon footprint", str "emission factor", str "scope 1", str "scope 2",
       str "scope 3", str "renewable energy", str "greenhouse gas", str "co2",
       str "sustainability", str "climate change"]),
    (str "calculator_usage",
      [str "how do i enter", str "how to add", str "how to input", str "data entry",
       str "energy usage", str "travel data", str "waste management", str "fuel types",
       str "remote work", str "employee data", str "usage calculator"]),
    (str "industry_benchmarks",
      [str "benchmark", str "compare", str "industry average", str "performance",
       str "technology companies", str "manufacturers", str "retail sector",
       str "how does my company", str "average carbon footprint"]),
    (str "recommendations",
      [str "how can i reduce", str "reduce carbon", str "best practices",
       str "quick wins", str "energy savings", str "travel emissions",
       str "scope 3 reduction", str "renewable energy transition",
       str "carbon reduction strategies"]),
    (str "advanced_analytics",
      [str "projected", str "prediction", str "forecast", str "next year",
       str "future", str "electric vehicles", str "reduction potential",
       str "money save", str "carbon neutrality", str "milestones", str "targets"]),
    (str "ai_ml_features",
      [str "ai improve", str "machine learning", str "ml models",
       str "confidence scores", str "ai recommend", str "system learn",
       str "algorithms", str "artificial intelligence", str "how does ai",
       str "neural network"]),
    (str "reporting_tracking",
      [str "track emissions", str "monthly tracking", str "breakdown", str "report",
       str "science-based targets", str "emissions by source", str "carbon reporting"]),
    (str "industry_specific",
      [str "manufacturing", str "retail", str "technology", str "healthcare",
       str "finance", str "automotive", str "aviation", str "construction",
       str "agriculture"]),
    (str "general_info",
      [str "who made", str "ecoleaf analytics", str "demo", str "sustainability goals",
       str "cost of carbon", str "about this", str "company information"]),
    (str "calculate_carbon",
      [str "calculate", str "footprint", str "emissions", str "carbon", str "co2",
       str "compute", str "estimate", str "measure", str "assessment", str "audit"]),
    (str "get_recommendations",
      [str "recommend", str "suggest", str "advice", str "tips", str "best practices",
       str "improve", str "reduce", str "optimize", str "strategies"]),
    (str "explain_concept",
      [str "what is", str "explain", str "define", str "meaning", str "understand",
       str "how does", str "why", str "difference between"]),
    (str "compliance_standards",
      [str "ghg protocol", str "iso 14064", str "sbti", str "tcfd", str "cdp",
       str "compliance", str "regulation", str "standard", str "reporting"]),
    (str "cost_analysis",
      [str "cost", str "price", str "investment", str "roi", str "savings",
       str "budget", str "financial", str "economic", str "payback"]),
    (str "reduction_strategies",
      [str "reduce", str "decrease", str "lower", str "cut", str "minimize",
       str "strategy", str "plan", str "roadmap", str "targets"]) ]

def intentsTable : List (Str × List Str) :=
  (str "greeting", greetingKeywords) :: intentsTail

/-- The short greeting words of `classify`'s special case. -/
def greetShort : List Str := [str "hello", str "hi", str "hey", str "sup", str "howdy"]

/-- The short farewell words of `classify`'s special case. -/
def byeShort : List Str := [str "bye", str "goodbye", str "thanks", str "thank"]

/-- The special-case base score of one intent: `classify` assigns 100 to
`greeting` (resp. `goodbye`) before the keyword loop when the utterance
has at most two tokens and its first token is a fixed short word. -/
def specialBase (words : List Str) (name : Str) : Nat :=
  if words.length ≤ 2 then
    let firstWord := words.headD []
    if name = str "greeting" ∧ firstWord ∈ greetShort then 100
    else if name = str "goodbye" ∧ firstWord ∈ byeShort then 100
    else 0
  else 0

/-- Score contribution of one keyword in `classify`: 3 points per keyword
word on an exact substring match of the whole (lowercased) keyword, plus
1 point for each utterance token of length > 2 occurring inside the
keyword. -/
def keywordScore (clean : Str) (words : List Str) (k : Str) : Nat :=
  let kl := lowerStr k
  (if includesStr clean kl then 3 * (splitSp kl).length else 0)
    + (words.filter (fun w => includesStr kl w && decide (w.length > 2))).length

/-- Total score of one intent: special-case base plus the keyword sum. -/
def intentScore (clean : Str) (words : List Str) (name : Str) (kws : List Str) : Nat :=
  specialBase words name + (kws.map (keywordScore clean words)).sum

/-- The `(name, score)` entries of `classify`, in table order. -/
def scoreEntries (clean : Str) (words : List Str) : List (Str × Nat) :=
  intentsTable.map (fun p => (p.1, intentScore clean words p.1 p.2))

/-- JS `Object.entries(scores).reduce((a, b) => scores[a[0]] > scores[b[0]] ? a : b)`:
keeps the accumulator only on a strictly greater score, so ties go to the
later entry. -/
def bestEntry : List (Str × Nat) → Str × Nat
  | [] => (str "unknown", 0)
  | e :: rest => rest.foldl (fun a b => if a.2 > b.2 then a else b) e

/-- The confidence step function of `classify`, over exact rationals. -/
def stepConfidence (score : Nat) : ℚ :=
  if score ≥ 100 then 95/100
  else if score > 5 then min (9/10) (7/10 + (score : ℚ) * (2/100))
  else if score > 0 then min (7/10) (4/10 + (score : ℚ) * (1/10))
  else 2/10

/-- The discrete part of `IntentClassifier.classify`: lowercase and trim
the message, split it on single spaces, score every intent and pick the
winning `(name, score)` entry (`const bestIntent = ...reduce(...)`). -/
def bestOf (message : Str) : Str × Nat :=
  bestEntry (scoreEntries (trimStr (lowerStr message)) (splitSp (trimStr (lowerStr message))))

/-- `IntentClassifier.classify`, over the constructor's keyword table:
from the winning entry, derive the confidence by the step function and
override the name to `unknown` on a zero score or a confidence below 0.3;
the diagnostic `scores` field carries every intent's score. -/
def classify (message : Str) : Intent :=
  let best := bestOf message
  let confidence := stepConfidence best.2
  let name := if best.2 = 0 ∨ confidence < 3/10 then str "unknown" else best.1
  ⟨name, confidence,
    scoreEntries (trimStr (lowerStr message)) (splitSp (trimStr (lowerStr message)))⟩

lemma classify_confidence_eq (m : Str) :
    (classify m).confidence = stepConfidence (bestOf m).2 := by
  simp only [classify]

lemma classify_scores_eq (m : Str) :
    (classify m).scores
      = scoreEntries (trimStr (lowerStr m)) (splitSp (trimStr (lowerStr m))) := by
  simp only [classify]

lemma classify_name_def (m : Str) :
    (classify m).name
      = if (bestOf m).2 = 0 ∨ stepConfidence (bestOf m).2 < 3/10 then str "unknown"
        else (bestOf m).1 := by
  simp only [classify]

lemma stepConfidence_of_ge100 {s : Nat} (h : 100 ≤ s) : stepConfidence s = 95/100 := by
  simp [stepConfidence, h]

lemma stepConfidence_zero : stepConfidence 0 = 2/10 := by
  norm_num [stepConfidence]

lemma half_le_stepConfidence {s : Nat} (h : 0 < s) : 1/2 ≤ stepConfidence s := by
  unfold stepConfidence
  rcases le_or_lt 100 s with h100 | h100
  · rw [if_pos h100]; norm_num
  · rw [if_neg (by omega)]
    rcases lt_or_le 5 s with h5 | h5
    · rw [if_pos h5]
      refine le_min (by norm_num) ?_
      have : (0 : ℚ) ≤ (s : ℚ) * (2/100) := by positivity
      linarith
    · rw [if_neg (by omega), if_pos h]
      refine le_min (by norm_num) ?_
      have : (1 : ℚ) ≤ (s : ℚ) := by exact_mod_cast h
      linarith

lemma stepConfidence_le_95 (s : Nat) : stepConfidence s ≤ 95/100 := by
  unfold stepConfidence
  rcases le_or_lt 100 s with h100 | h100
  · rw [if_pos h100]
  · rw [if_neg (by omega)]
    rcases lt_or_le 5 s with h5 | h5
    · rw [if_pos h5]
      exact le_trans (min_le_left _ _) (by norm_num)
    · rw [if_neg (by omega)]
      rcases Nat.eq_zero_or_pos s with h0 | h0
      · subst h0
        rw [if_neg (by omega)]
        norm_num
      · rw [if_pos h0]
        exact le_trans (min_le_left _ _) (by norm_num)

lemma le_stepConfidence_2_10 (s : Nat) : 2/10 ≤ stepConfidence s := by
  rcases Nat.eq_zero_or_pos s with h0 | h0
  · subst h0; rw [stepConfidence_zero]
  · exact le_trans (by norm_num) (half_le_stepConfidence h0)

lemma stepConfidence_lt_3_10_iff (s : Nat) : stepConfidence s < 3/10 ↔ s = 0 := by
  constructor
  · intro h
    by_contra h0
    have := half_le_stepConfidence (Nat.pos_of_ne_zero h0)
    linarith
  · rintro rfl
    rw [stepConfidence_zero]; norm_num

/-- The unknown-override condition of `classify` collapses to `score = 0`. -/
lemma classify_name_eq (m : Str) :
    (classify m).name = if (bestOf m).2 = 0 then str "unknown" else (bestOf m).1 := by
  rw [classify_name_def]
  rcases Nat.eq_zero_or_pos (bestOf m).2 with h0 | h0
  · rw [if_pos (Or.inl h0), if_pos h0]
  · have hA : ¬((bestOf m).2 = 0 ∨ stepConfidence (bestOf m).2 < 3/10) := by
      rw [not_or, stepConfidence_lt_3_10_iff]
      omega
    rw [if_neg hA, if_neg (by omega)]

example : bestOf (str "hello") = (str "greeting", 104) := by decide
example : (bestOf (str "xyzzy plugh")).2 = 0 := by decide
example : bestOf (str "hello  there") = (str "greeting", 4) := by decide

lemma bestFold_mem (a : Str × Nat) (l : List (Str × Nat)) :
    l.foldl (fun x y => if x.2 > y.2 then x else y) a ∈ a :: l := by
  induction l generalizing a with
  | nil => simp
  | cons b t ih =>
    have h := ih (if a.2 > b.2 then a else b)
    rw [List.foldl_cons]
    rcases List.mem_cons.mp h with h1 | h1
    · rw [h1]
      by_cases hab : a.2 > b.2
      · rw [if_pos hab]
        exact List.mem_cons_self _ _
      · rw [if_neg hab]
        exact List.mem_cons_of_mem _ (List.mem_cons_self _ _)
    · exact List.mem_cons_of_mem _ (List.mem_cons_of_mem _ h1)

lemma bestFold_of_lt (a : Str × Nat) (l : List (Str × Nat))
    (h : ∀ b ∈ l, b.2 < a.2) :
    l.foldl (fun x y => if x.2 > y.2 then x else y) a = a := by
  induction l with
  | nil => rfl
  | cons b t ih =>
    rw [List.foldl_cons, if_pos (h b (List.mem_cons_self _ _))]
    exact ih fun c hc => h c (List.mem_cons_of_mem _ hc)

lemma bestEntry_mem {l : List (Str × Nat)} (h : l ≠ []) : bestEntry l ∈ l := by
  cases l with
  | nil => exact absurd rfl h
  | cons e t => exact bestFold_mem e t

lemma scoreEntries_map_fst (c : Str) (w : List Str) :
    (scoreEntries c w).map Prod.fst = intentsTable.map Prod.fst := by
  simp [scoreEntries, List.map_map]

lemma scoreEntries_ne_nil (c : Str) (w : List Str) :
    scoreEntries c w ≠ [] := by
  intro h
  have := congrArg List.length h
  rw [scoreEntries, List.length_map] at this
  simp [intentsTable] at this

lemma bestOf_mem (m : Str) :
    bestOf m ∈ scoreEntries (trimStr (lowerStr m)) (splitSp (trimStr (lowerStr m))) :=
  bestEntry_mem (scoreEntries_ne_nil _ _)

lemma bestOf_fst_ne_unknown (m : Str) : (bestOf m).1 ≠ str "unknown" := by
  intro he
  have hfst : (bestOf m).1
      ∈ (scoreEntries (trimStr (lowerStr m)) (splitSp (trimStr (lowerStr m)))).map
          Prod.fst :=
    List.mem_map_of_mem _ (bestOf_mem m)
  rw [scoreEntries_map_fst, he] at hfst
  exact absurd hfst (by decide)

/-- The confidence mapping exactly as §4.1 of the specification words it:
`score≥100 → 0.95`; `5<score<100 → min(0.9, 0.7+score*0.02)`;
`0<score≤5 → min(0.7, 0.4+score*0.1)`; `score=0 → 0.2`. -/
def specConfidence (score : Nat) : ℚ :=
  if 100 ≤ score then 95/100
  else if 5 < score ∧ score < 100 then min (9/10) (7/10 + (score : ℚ) * (2/100))
  else if 0 < score ∧ score ≤ 5 then min (7/10) (4/10 + (score : ℚ) * (1/10))
  else 2/10

lemma stepConfidence_eq_specConfidence (s : Nat) :
    stepConfidence s = specConfidence s := by
  unfold stepConfidence specConfidence
  split_ifs <;> first | rfl | omega

/-- C4: the confidence `classify` returns is exactly the specification's
step function of the winning score; the name is overridden to `unknown`
exactly when the winning score is 0 or the confidence is below 0.3; and
an utterance with zero keyword overlap across every intent yields
`unknown` with confidence 0.2. -/
theorem classify_confidence_step (m : Str) :
    (classify m).confidence = specConfidence (bestOf m).2
      ∧ ((classify m).name = str "unknown"
          ↔ ((bestOf m).2 = 0 ∨ (classify m).confidence < 3/10))
      ∧ ((∀ p ∈ (classify m).scores, p.2 = 0)
          → (classify m).name = str "unknown" ∧ (classify m).confidence = 2/10) := by
  refine ⟨by rw [classify_confidence_eq, stepConfidence_eq_specConfidence], ?_, ?_⟩
  · rw [classify_name_eq, classify_confidence_eq, stepConfidence_lt_3_10_iff, or_self]
    rcases Nat.eq_zero_or_pos (bestOf m).2 with h0 | h0
    · rw [if_pos h0]
      simp [h0]
    · rw [if_neg (by omega)]
      constructor
      · intro h
        exact absurd h (bestOf_fst_ne_unknown m)
      · omega
  · intro hall
    have h0 : (bestOf m).2 = 0 := by
      have := hall (bestOf m) (by rw [classify_scores_eq]; exact bestOf_mem m)
      exact this
    refine ⟨?_, ?_⟩
    · rw [classify_name_eq, if_pos h0]
    · rw [classify_confidence_eq, h0, stepConfidence_zero]

/-- Witness for C4 at the concrete zero-overlap utterance `xyzzy plugh`. -/
theorem classify_confidence_step_witness :
    (classify (str "xyzzy plugh")).name = str "unknown"
      ∧ (classify (str "xyzzy plugh")).confidence = 2/10 :=
  (classify_confidence_step (str "xyzzy plugh")).2.2 (by decide)

/-- C10: the confidence of `classify` always lies in [0.2, 0.95]; the name
is `unknown` iff the winning score is 0, in which case the confidence is
exactly 0.2; any positive winning score yields confidence at least 0.5,
so the `confidence < 0.3` override test is redundant for nonzero scores. -/
theorem classify_confidence_bounds (m : Str) :
    2/10 ≤ (classify m).confidence
      ∧ (classify m).confidence ≤ 95/100
      ∧ ((classify m).name = str "unknown" ↔ (bestOf m).2 = 0)
      ∧ ((bestOf m).2 = 0 → (classify m).confidence = 2/10)
      ∧ (0 < (bestOf m).2 → 1/2 ≤ (classify m).confidence)
      ∧ (0 < (bestOf m).2 → ¬((classify m).confidence < 3/10)) := by
  rw [classify_confidence_eq, classify_name_eq]
  refine ⟨le_stepConfidence_2_10 _, stepConfidence_le_95 _, ?_, ?_, ?_, ?_⟩
  · rcases Nat.eq_zero_or_pos (bestOf m).2 with h0 | h0
    · rw [if_pos h0]
      simp [h0]
    · rw [if_neg (by omega)]
      constructor
      · intro h
        exact absurd h (bestOf_fst_ne_unknown m)
      · omega
  · intro h0
    rw [h0, stepConfidence_zero]
  · exact half_le_stepConfidence
  · intro h0 hlt
    rw [stepConfidence_lt_3_10_iff] at hlt
    omega

/-- Witness for C10 at the concrete utterance `hello`. -/
theorem classify_confidence_bounds_witness :
    0 < (bestOf (str "hello")).2 ∧ 1/2 ≤ (classify (str "hello")).confidence :=
  ⟨by decide, (classify_confidence_bounds (str "hello")).2.2.2.2.1 (by decide)⟩

/-! ### Structure of single-space splitting, substring occurrence and space
counting, used to bound every intent's keyword score on short greetings. -/

lemma splitSp_ne_nil (l : Str) : splitSp l ≠ [] := by
  cases l with
  | nil => simp [splitSp]
  | cons c rest =>
      by_cases h : c = ' ' <;> simp [splitSp, h]

lemma joinSp_cons_cons (a b : Str) (l : List Str) :
    joinSp (a :: b :: l) = a ++ ' ' :: joinSp (b :: l) := rfl

lemma splitSp_cons_sp (rest : Str) : splitSp (' ' :: rest) = [] :: splitSp rest := by
  simp [splitSp]

lemma splitSp_cons_nonsp {c : Char} (h : c ≠ ' ') (rest : Str) :
    splitSp (c :: rest)
      = (c :: (splitSp rest).headD []) :: (splitSp rest).tail := by
  simp [splitSp, h]

lemma joinSp_splitSp (l : Str) : joinSp (splitSp l) = l := by
  induction l with
  | nil => rfl
  | cons c rest ih =>
      by_cases h : c = ' '
      · subst h
        obtain ⟨a, r, hr⟩ : ∃ a r, splitSp rest = a :: r := by
          cases hsr : splitSp rest with
          | nil => exact absurd hsr (splitSp_ne_nil rest)
          | cons a r => exact ⟨a, r, rfl⟩
        rw [splitSp_cons_sp, hr, joinSp_cons_cons, List.nil_append]
        rw [hr] at ih
        rw [ih]
      · obtain ⟨a, r, hr⟩ : ∃ a r, splitSp rest = a :: r := by
          cases hsr : splitSp rest with
          | nil => exact absurd hsr (splitSp_ne_nil rest)
          | cons a r => exact ⟨a, r, rfl⟩
        rw [splitSp_cons_nonsp h, hr]
        simp only [List.headD_cons, List.tail_cons]
        rw [hr] at ih
        cases r with
        | nil =>
            simpa [joinSp] using congrArg (c :: ·) ih
        | cons b t =>
            rw [joinSp_cons_cons] at ih ⊢
            rw [List.cons_append]
            rw [ih]

lemma countSp_nil : countSp [] = 0 := rfl

lemma countSp_cons (c : Char) (l : Str) :
    countSp (c :: l) = (if c = ' ' then 1 else 0) + countSp l := by
  by_cases h : c = ' ' <;>
    simp [countSp, List.filter_cons, h, Nat.add_comm]

lemma countSp_append (a b : Str) : countSp (a ++ b) = countSp a + countSp b := by
  simp [countSp, List.filter_append]

lemma countSp_cons_zero {c : Char} {l : Str} :
    countSp (c :: l) = 0 ↔ (c ≠ ' ' ∧ countSp l = 0) := by
  by_cases h : c = ' ' <;> simp [countSp_cons, h]

lemma splitSp_of_countSp_zero {l : Str} (h : countSp l = 0) : splitSp l = [l] := by
  induction l with
  | nil => rfl
  | cons c rest ih =>
      obtain ⟨hc, hrest⟩ := countSp_cons_zero.mp h
      rw [splitSp_cons_nonsp hc, ih hrest]
      rfl

lemma splitSp_mem_countSp {l : Str} : ∀ w ∈ splitSp l, countSp w = 0 := by
  induction l with
  | nil =>
      intro w hw
      simp [splitSp] at hw
      simp [hw, countSp_nil]
  | cons c rest ih =>
      intro w hw
      by_cases h : c = ' '
      · subst h
        rw [splitSp_cons_sp] at hw
        rcases List.mem_cons.mp hw with h1 | h1
        · simp [h1, countSp_nil]
        · exact ih w h1
      · rw [splitSp_cons_nonsp h] at hw
        obtain ⟨a, r, hr⟩ : ∃ a r, splitSp rest = a :: r := by
          cases hsr : splitSp rest with
          | nil => exact absurd hsr (splitSp_ne_nil rest)
          | cons a r => exact ⟨a, r, rfl⟩
        rw [hr] at hw
        simp only [List.headD_cons, List.tail_cons] at hw
        rcases List.mem_cons.mp hw with h1 | h1
        · subst h1
          rw [countSp_cons_zero]
          exact ⟨h, ih a (hr ▸ List.mem_cons_self a r)⟩
        · exact ih w (hr ▸ List.mem_cons_of_mem a h1)

lemma splitSp_append_sp {k1 : Str} (k2 : Str) (h : countSp k1 = 0) :
    splitSp (k1 ++ ' ' :: k2) = k1 :: splitSp k2 := by
  induction k1 with
  | nil => simp [splitSp]
  | cons c t ih =>
      obtain ⟨hc, ht⟩ := countSp_cons_zero.mp h
      rw [List.cons_append, splitSp_cons_nonsp hc, ih ht]
      rfl

lemma isPre_iff {n h : Str} : isPre n h = true ↔ ∃ t, h = n ++ t := by
  induction n generalizing h with
  | nil => simp [isPre]
  | cons c cs ih =>
      cases h with
      | nil => simp [isPre]
      | cons d ds =>
          simp only [isPre, Bool.and_eq_true, decide_eq_true_eq, ih,
            List.cons_append, List.cons.injEq]
          constructor
          · rintro ⟨rfl, t, rfl⟩
            exact ⟨t, rfl, rfl⟩
          · rintro ⟨t, rfl, rfl⟩
            exact ⟨rfl, t, rfl⟩

lemma includesStr_iff {h n : Str} :
    includesStr h n = true ↔ ∃ s t, h = s ++ n ++ t := by
  induction h with
  | nil =>
      cases n with
      | nil => simp [includesStr, List.isEmpty]
      | cons c cs => simp [includesStr, List.isEmpty]
  | cons c t ih =>
      simp only [includesStr, Bool.or_eq_true, isPre_iff, ih]
      constructor
      · rintro (⟨u, hu⟩ | ⟨s, u, hu⟩)
        · exact ⟨[], u, by simpa using hu⟩
        · exact ⟨c :: s, u, by simp [hu]⟩
      · rintro ⟨s, u, hu⟩
        cases s with
        | nil =>
            exact Or.inl ⟨u, by simpa using hu⟩
        | cons x s' =>
            simp only [List.cons_append, List.cons.injEq] at hu
            exact Or.inr ⟨s', u, hu.2⟩

lemma countSp_le_of_includes {h n : Str} (hin : includesStr h n = true) :
    countSp n ≤ countSp h := by
  obtain ⟨s, t, rfl⟩ := includesStr_iff.mp hin
  rw [countSp_append, countSp_append]
  omega

lemma not_includes_of_countSp_lt {h n : Str} (hlt : countSp h < countSp n) :
    includesStr h n = false := by
  cases hin : includesStr h n with
  | false => rfl
  | true => exact absurd (countSp_le_of_includes hin) (by omega)

lemma countSp_one_decomp {k : Str} (h : countSp k = 1) :
    ∃ k1 k2, k = k1 ++ ' ' :: k2 ∧ countSp k1 = 0 ∧ countSp k2 = 0 := by
  induction k with
  | nil => simp [countSp_nil] at h
  | cons c t ih =>
      by_cases hc : c = ' '
      · subst hc
        rw [countSp_cons, if_pos rfl] at h
        exact ⟨[], t, rfl, rfl, by omega⟩
      · rw [countSp_cons, if_neg hc] at h
        obtain ⟨k1, k2, hk, h1, h2⟩ := ih (by omega)
        exact ⟨c :: k1, k2, by rw [hk]; rfl, countSp_cons_zero.mpr ⟨hc, h1⟩, h2⟩

/-- Two decompositions of a one-space string around its space agree. -/
lemma uniqueSplit {a b c d : Str}
    (heq : a ++ ' ' :: b = c ++ ' ' :: d)
    (ha : countSp a = 0) (hc : countSp c = 0) : a = c ∧ b = d := by
  induction a generalizing c with
  | nil =>
      cases c with
      | nil => simpa using heq
      | cons x c' =>
          simp only [List.nil_append, List.cons_append, List.cons.injEq] at heq
          exact absurd heq.1.symm (countSp_cons_zero.mp hc).1
  | cons y a' ih =>
      cases c with
      | nil =>
          simp only [List.cons_append, List.nil_append, List.cons.injEq] at heq
          exact absurd heq.1 (countSp_cons_zero.mp ha).1
      | cons x c' =>
          simp only [List.cons_append, List.cons.injEq] at heq
          obtain ⟨h1, h2⟩ :=
            ih heq.2 (countSp_cons_zero.mp ha).2 (countSp_cons_zero.mp hc).2
          exact ⟨by rw [heq.1, h1], h2⟩

/-- `isSuffix n h`: `n` is a suffix of `h`. -/
def isSuffix (n h : Str) : Bool := isPre n.reverse h.reverse

lemma isSuffix_iff {n h : Str} : isSuffix n h = true ↔ ∃ s, h = s ++ n := by
  unfold isSuffix
  rw [isPre_iff]
  constructor
  · rintro ⟨t, ht⟩
    refine ⟨t.reverse, ?_⟩
    have := congrArg List.reverse ht
    simpa using this
  · rintro ⟨s, rfl⟩
    exact ⟨s.reverse, by simp⟩

/-- The first single-space-separated chunk of a string. -/
def firstChunk (l : Str) : Str := (splitSp l).headD []

lemma firstChunk_decomp {k1 : Str} (k2 : Str) (h : countSp k1 = 0) :
    firstChunk (k1 ++ ' ' :: k2) = k1 := by
  rw [firstChunk, splitSp_append_sp k2 h]
  rfl

/-- A keyword containing exactly one space cannot occur in a two-token
utterance whose first token does not end with the keyword's first chunk. -/
lemma not_includes_one_space {w1 w2 kl : Str}
    (hw1 : countSp w1 = 0) (hw2 : countSp w2 = 0)
    (hkl : countSp kl = 1)
    (hsuf : isSuffix (firstChunk kl) w1 = false) :
    includesStr (w1 ++ ' ' :: w2) kl = false := by
  cases hin : includesStr (w1 ++ ' ' :: w2) kl with
  | false => rfl
  | true =>
      exfalso
      obtain ⟨s, t, hst⟩ := includesStr_iff.mp hin
      obtain ⟨k1, k2, hk, hk1, hk2⟩ := countSp_one_decomp hkl
      have hs : countSp s = 0 ∧ countSp t = 0 := by
        have := congrArg countSp hst
        rw [countSp_append, countSp_cons, if_pos rfl, countSp_append,
          countSp_append, hkl] at this
        omega
      have heq : w1 ++ ' ' :: w2 = (s ++ k1) ++ ' ' :: (k2 ++ t) := by
        rw [hst, hk]
        simp [List.append_assoc]
      obtain ⟨h1, _⟩ := uniqueSplit heq hw1
        (by rw [countSp_append, hs.1, hk1])
      have : isSuffix (firstChunk kl) w1 = true := by
        rw [isSuffix_iff]
        exact ⟨s, by rw [h1, hk, firstChunk_decomp k2 hk1]⟩
      rw [this] at hsuf
      exact Bool.true_eq_false.mp hsuf


/-! ### C3: utterances of at most two tokens headed by a greeting word -/

lemma greet_not_bye : ∀ w ∈ greetShort, w ∉ byeShort := by decide

lemma intentsTail_names : ∀ p ∈ intentsTail, p.1 ≠ str "greeting" := by decide

/-- Finite check over the table: every keyword whose lowercased form holds
exactly one space starts with a chunk that is a suffix of no short
greeting word. -/
lemma keywords_one_space_check :
    ∀ p ∈ intentsTable, ∀ k ∈ p.2, countSp (lowerStr k) = 1 →
      ∀ g ∈ greetShort, isSuffix (firstChunk (lowerStr k)) g = false := by decide

/-- Finite check over the table: for a two-token utterance, no
non-greeting intent can accumulate 100 points. -/
lemma intent_bound_check :
    ∀ p ∈ intentsTable, p.1 ≠ str "greeting" →
      (p.2.map (fun k => (if countSp (lowerStr k) = 0 then 3 else 0) + 2)).sum ≤ 99 := by
  decide

lemma keywordScore_le (clean : Str) (words : List Str) (k : Str)
    (hni : countSp (lowerStr k) ≠ 0 → includesStr clean (lowerStr k) = false) :
    keywordScore clean words k
      ≤ (if countSp (lowerStr k) = 0 then 3 else 0) + words.length := by
  have hfil :
      (words.filter fun w =>
        includesStr (lowerStr k) w && decide (w.length > 2)).length ≤ words.length :=
    List.length_filter_le _ _
  simp only [keywordScore]
  rcases Nat.eq_zero_or_pos (countSp (lowerStr k)) with h0 | h0
  · have h1 : (splitSp (lowerStr k)).length = 1 := by
      rw [splitSp_of_countSp_zero h0]
      rfl
    have hphrase :
        (if includesStr clean (lowerStr k) then 3 * (splitSp (lowerStr k)).length else 0)
          ≤ 3 := by
      rw [h1]
      split <;> omega
    rw [if_pos h0]
    omega
  · rw [hni (by omega)]
    rw [if_neg (by omega : ¬countSp (lowerStr k) = 0)]
    rw [if_neg Bool.false_ne_true]
    omega

lemma specialBase_eq_100 {words : List Str}
    (h2 : words.length ≤ 2) (hg : words.headD [] ∈ greetShort) :
    specialBase words (str "greeting") = 100 := by
  have hg' : words.head?.getD [] ∈ greetShort := by
    cases words with
    | nil => exact absurd hg (by decide)
    | cons a t => simpa using hg
  simp [specialBase, h2, hg, hg']

lemma specialBase_eq_zero {words : List Str} {name : Str}
    (hg : words.headD [] ∈ greetShort) (hn : name ≠ str "greeting") :
    specialBase words name = 0 := by
  have hb : words.headD [] ∉ byeShort := greet_not_bye _ hg
  simp only [specialBase]
  by_cases h2 : words.length ≤ 2
  · rw [if_pos h2, if_neg (fun h => hn h.1), if_neg (fun h => hb h.2)]
  · rw [if_neg h2]

lemma bestEntry_cons (e : Str × Nat) (l : List (Str × Nat)) :
    bestEntry (e :: l) = l.foldl (fun a b => if a.2 > b.2 then a else b) e := rfl

lemma scoreEntries_expand (c : Str) (w : List Str) :
    scoreEntries c w
      = (str "greeting", intentScore c w (str "greeting") greetingKeywords)
          :: intentsTail.map (fun p => (p.1, intentScore c w p.1 p.2)) := rfl

lemma bestEntry_greeting (clean : Str) (words : List Str)
    (h2 : words.length ≤ 2)
    (hg : words.headD [] ∈ greetShort)
    (hni : ∀ p ∈ intentsTable, ∀ k ∈ p.2,
        countSp (lowerStr k) ≠ 0 → includesStr clean (lowerStr k) = false) :
    (bestEntry (scoreEntries clean words)).1 = str "greeting"
      ∧ 100 ≤ (bestEntry (scoreEntries clean words)).2 := by
  have hbound : ∀ p ∈ intentsTable, p.1 ≠ str "greeting" →
      intentScore clean words p.1 p.2 ≤ 99 := by
    intro p hp hpn
    unfold intentScore
    have hb0 : specialBase words p.1 = 0 := specialBase_eq_zero hg hpn
    have hsum1 : (p.2.map (keywordScore clean words)).sum
        ≤ (p.2.map (fun k =>
            (if countSp (lowerStr k) = 0 then 3 else 0) + words.length)).sum :=
      List.sum_le_sum fun k hk => keywordScore_le clean words k (hni p hp k hk)
    have hsum2 : (p.2.map (fun k =>
            (if countSp (lowerStr k) = 0 then 3 else 0) + words.length)).sum
        ≤ (p.2.map (fun k =>
            (if countSp (lowerStr k) = 0 then 3 else 0) + 2)).sum :=
      List.sum_le_sum fun k _ => by omega
    have hb := intent_bound_check p hp hpn
    omega
  have hgreet : 100 ≤ intentScore clean words (str "greeting") greetingKeywords := by
    unfold intentScore
    rw [specialBase_eq_100 h2 hg]
    omega
  rw [scoreEntries_expand, bestEntry_cons]
  have hrest : ∀ b ∈ intentsTail.map (fun p => (p.1, intentScore clean words p.1 p.2)),
      b.2 < (str "greeting", intentScore clean words (str "greeting") greetingKeywords).2 := by
    intro b hb
    obtain ⟨p, hp, rfl⟩ := List.mem_map.mp hb
    have h99 : intentScore clean words p.1 p.2 ≤ 99 :=
      hbound p (List.mem_cons_of_mem _ hp) (intentsTail_names p hp)
    show intentScore clean words p.1 p.2
        < intentScore clean words (str "greeting") greetingKeywords
    omega
  rw [bestFold_of_lt _ _ hrest]
  exact ⟨rfl, hgreet⟩

lemma bestOf_greeting (m : Str)
    (h2 : (splitSp (trimStr (lowerStr m))).length ≤ 2)
    (hg : (splitSp (trimStr (lowerStr m))).headD [] ∈ greetShort) :
    (bestOf m).1 = str "greeting" ∧ 100 ≤ (bestOf m).2 := by
  have hni : ∀ p ∈ intentsTable, ∀ k ∈ p.2,
      countSp (lowerStr k) ≠ 0
        → includesStr (trimStr (lowerStr m)) (lowerStr k) = false := by
    intro p hp k hk hck
    have hjoin : joinSp (splitSp (trimStr (lowerStr m))) = trimStr (lowerStr m) :=
      joinSp_splitSp _
    have hcomp : ∀ w ∈ splitSp (trimStr (lowerStr m)), countSp w = 0 :=
      splitSp_mem_countSp
    obtain ⟨w1, ws, hw1⟩ :=
      List.exists_cons_of_ne_nil (splitSp_ne_nil (trimStr (lowerStr m)))
    cases ws with
    | nil =>
        have hcw : trimStr (lowerStr m) = w1 := by
          rw [← hjoin, hw1]
          rfl
        have h0 : countSp (trimStr (lowerStr m)) = 0 := by
          rw [hcw]
          exact hcomp w1 (hw1 ▸ List.mem_cons_self _ _)
        exact not_includes_of_countSp_lt (by omega)
    | cons w2 ws2 =>
        cases ws2 with
        | nil =>
            have hcw : trimStr (lowerStr m) = w1 ++ ' ' :: w2 := by
              rw [← hjoin, hw1]
              rfl
            have hw1s : countSp w1 = 0 :=
              hcomp w1 (hw1 ▸ List.mem_cons_self _ _)
            have hw2s : countSp w2 = 0 :=
              hcomp w2 (hw1 ▸ List.mem_cons_of_mem _ (List.mem_cons_self _ _))
            have hg1 : w1 ∈ greetShort := by
              rw [hw1] at hg
              simpa using hg
            rcases Nat.lt_or_ge 1 (countSp (lowerStr k)) with hgt | hle
            · rw [hcw]
              apply not_includes_of_countSp_lt
              rw [countSp_append, countSp_cons, if_pos rfl]
              omega
            · have h1 : countSp (lowerStr k) = 1 := by omega
              rw [hcw]
              exact not_includes_one_space hw1s hw2s h1
                (keywords_one_space_check p hp k hk h1 w1 hg1)
        | cons w3 ws3 =>
            rw [hw1] at h2
            simp only [List.length_cons] at h2
            omega
  exact bestEntry_greeting (trimStr (lowerStr m)) (splitSp (trimStr (lowerStr m))) h2 hg hni

/-- C3 (amended): for every utterance whose lowercased, trimmed form —
split on single space characters, as the code tokenizes — has at most two
tokens with the first token one of the fixed greeting words, `classify`
returns intent `greeting` with confidence exactly 0.95. -/
theorem classify_short_greeting (m : Str)
    (h2 : (splitSp (trimStr (lowerStr m))).length ≤ 2)
    (hg : (splitSp (trimStr (lowerStr m))).headD [] ∈ greetShort) :
    (classify m).name = str "greeting" ∧ (classify m).confidence = 95/100 := by
  obtain ⟨hn, hs⟩ := bestOf_greeting m h2 hg
  constructor
  · rw [classify_name_eq, if_neg (by omega), hn]
  · rw [classify_confidence_eq, stepConfidence_of_ge100 hs]

/-- Witness for C3 at the concrete utterance `hello`. -/
theorem classify_short_greeting_witness :
    (classify (str "hello")).name = str "greeting"
      ∧ (classify (str "hello")).confidence = 95/100 :=
  classify_short_greeting (str "hello") (by decide) (by decide)

/-- Fuel-driven whitespace tokenizer (the fuel is the input's length). -/
def splitWsF : Nat → Str → List Str
  | 0, _ => []
  | _+1, [] => []
  | fuel+1, c :: rest =>
      if isWs c then splitWsF fuel rest
      else (c :: rest.takeWhile (fun d => !(isWs d)))
            :: splitWsF fuel (rest.dropWhile (fun d => !(isWs d)))

/-- Modelled from the claim's wording (not from the source): the
"normalized (lowercased, trimmed, whitespace-tokenized) form" of an
utterance, splitting on whitespace runs. -/
def wsTokens (m : Str) : List Str :=
  splitWsF (trimStr (lowerStr m)).length (trimStr (lowerStr m))

/-- C3 counterexample: `hello  there` (two spaces) whitespace-tokenizes
to two tokens headed by a greeting word, yet `classify` does not return
confidence 0.95 for it (the code splits on single spaces and sees three
tokens, so the special case does not fire and the confidence is 0.7). -/
theorem classify_short_greeting_counterexample :
    wsTokens (str "hello  there") = [str "hello", str "there"]
      ∧ (wsTokens (str "hello  there")).length ≤ 2
      ∧ (wsTokens (str "hello  there")).headD [] ∈ greetShort
      ∧ ¬((classify (str "hello  there")).name = str "greeting"
            ∧ (classify (str "hello  there")).confidence = 95/100) := by
  refine ⟨by decide, by decide, by decide, ?_⟩
  rintro ⟨-, hconf⟩
  have hb : (bestOf (str "hello  there")).2 = 4 := by decide
  rw [classify_confidence_eq, hb] at hconf
  simp only [stepConfidence] at hconf
  norm_num [min_def] at hconf

/-! ### Entity extraction: the regex patterns of `EntityExtractor`,
embedded as leftmost-first backtracking matchers over character lists. -/

/-- An Entity as produced by `EntityExtractor.extract`. -/
structure Entity where
  type : Str
  value : Str
  confidence : ℚ
deriving DecidableEq

/-- JS `\w` (ASCII word character). -/
def isWordC (c : Char) : Bool :=
  ('a' ≤ c && c ≤ 'z') || ('A' ≤ c && c ≤ 'Z') || ('0' ≤ c && c ≤ '9') || c = '_'

/-- Fuel-driven `replace(/\s+/g, ' ')`: collapse each whitespace run to a
single space (the fuel is the input's length, always sufficient). -/
def collapseWsF : Nat → Str → Str
  | 0, _ => []
  | _+1, [] => []
  | fuel+1, c :: rest =>
      if isWs c then ' ' :: collapseWsF fuel (rest.dropWhile isWs)
      else c :: collapseWsF fuel rest

/-- `IntelligentChatbot.preprocessMessage`: lowercase, trim, replace every
character outside `[\w\s.-]` by a space, collapse whitespace runs. -/
def preprocess (m : Str) : Str :=
  let t := trimStr (lowerStr m)
  let repl := t.map fun c => if isWordC c || isWs c || c = '.' || c = '-' then c else ' '
  collapseWsF repl.length repl

/-- All splits of a leading `\d+` in backtracking order: the nonempty
prefixes of the maximal digit run, longest (greedy) first. -/
def dPlusCands (l : Str) : List (Str × Str) :=
  let run := l.takeWhile Char.isDigit
  (List.range run.length).map fun i => (l.take (run.length - i), l.drop (run.length - i))

/-- All splits of a `(?:,\d{3})*` run, most repetitions (greedy) first. -/
def commaGroups : Nat → Str → List (Str × Str)
  | 0, l => [([], l)]
  | fuel+1, l =>
      match l with
      | ',' :: rest =>
          let ds := rest.take 3
          if ds.length = 3 && ds.all Char.isDigit then
            ((commaGroups fuel (rest.drop 3)).map fun p => (',' :: (ds ++ p.1), p.2))
              ++ [([], l)]
          else [([], l)]
      | _ => [([], l)]

/-- All splits of an optional `(?:\.\d+)?`, present (greedy) first. -/
def decCands (l : Str) : List (Str × Str) :=
  (match l with
   | '.' :: rest => (dPlusCands rest).map fun p => ('.' :: p.1, p.2)
   | _ => []) ++ [([], l)]

/-- Capture candidates for `(\d+(?:,\d{3})*(?:\.\d+)?)`. -/
def numCands (l : Str) : List (Str × Str) :=
  (dPlusCands l).flatMap fun a =>
    (commaGroups a.2.length a.2).flatMap fun b =>
      (decCands b.2).map fun c => (a.1 ++ b.1 ++ c.1, c.2)

/-- Capture candidates for `(\d+(?:,\d{3})*)` (employees). -/
def numCommaCands (l : Str) : List (Str × Str) :=
  (dPlusCands l).flatMap fun a =>
    (commaGroups a.2.length a.2).map fun b => (a.1 ++ b.1, b.2)

/-- Capture candidates for `(\d+(?:\.\d+)?)` (percentage). -/
def numDecCands (l : Str) : List (Str × Str) :=
  (dPlusCands l).flatMap fun a =>
    (decCands a.2).map fun c => (a.1 ++ c.1, c.2)

/-- Capture candidates for plain `(\d+)` (timeframe). -/
def numPlainCands (l : Str) : List (Str × Str) := dPlusCands l

/-- Case-insensitive prefix test (the `/i` flag). -/
def isCIPre (pat l : Str) : Bool := isPre (lowerStr pat) (lowerStr l)

/-- Try a numeric pattern at the current position: the first capture
candidate whose rest, after `\s*`, starts with one of the unit
alternatives (units carry no capture, so only existence matters). -/
def tryNumAt (cands : Str → List (Str × Str)) (units : List Str) (l : Str) : Option Str :=
  (cands l).findSome? fun p =>
    if units.any (fun u => isCIPre u (p.2.dropWhile isWs)) then some p.1 else none

/-- JS `String.prototype.match` without `/g`: scan positions left to
right and return the first successful capture. -/
def scanMatch (step : Str → Option Str) : Str → Option Str
  | [] => step []
  | c :: rest =>
      match step (c :: rest) with
      | some g => some g
      | none => scanMatch step rest

/-- The industry alternation, in the pattern's order. -/
def industryWords : List Str :=
  [str "manufacturing", str "retail", str "technology", str "healthcare",
   str "finance", str "automotive", str "aviation", str "construction",
   str "agriculture"]

/-- Try the industry alternation at the current position; the capture is
the matched slice of the input (original case). -/
def tryIndustryAt (l : Str) : Option Str :=
  industryWords.findSome? fun w =>
    if isCIPre w l then some (l.take w.length) else none

/-- Mandatory stems of the unit alternations: an optional trailing `s?`
cannot change whether a match exists and is not captured. -/
def energyUnits : List Str := [str "kwh", str "kilowatt", str "energy"]

def fuelUnits : List Str := [str "liter", str "litre", str "gallon", str "fuel"]

def employeeUnits : List Str := [str "employee", str "worker", str "staff"]

def travelUnits : List Str := [str "km", str "kilometer", str "mile", str "travel"]

def wasteUnits : List Str := [str "ton", str "tonne", str "waste"]

def percentUnits : List Str := [str "%", str "percent"]

def timeUnits : List Str := [str "year", str "month"]

/-- The pattern table of `EntityExtractor`, as first-match functions, in
the object's insertion order. -/
def patternsTable : List (Str × (Str → Option Str)) :=
  [ (str "energy", scanMatch (tryNumAt numCands energyUnits)),
    (str "fuel", scanMatch (tryNumAt numCands fuelUnits)),
    (str "employees", scanMatch (tryNumAt numCommaCands employeeUnits)),
    (str "travel", scanMatch (tryNumAt numCands travelUnits)),
    (str "waste", scanMatch (tryNumAt numCands wasteUnits)),
    (str "percentage", scanMatch (tryNumAt numDecCands percentUnits)),
    (str "industry", scanMatch tryIndustryAt),
    (str "timeframe", scanMatch (tryNumAt numPlainCands timeUnits)) ]

/-- `EntityExtractor.extract`: at most one Entity per pattern, the value
being the first capture group of the first match, confidence 0.9. -/
def extract (message : Str) : List Entity :=
  patternsTable.filterMap fun p =>
    (p.2 message).map fun v => ⟨p.1, v, 9/10⟩

/-- The entity list the `processMessage` pipeline computes: `extract`
applied to the preprocessed message, not the original one. -/
def pipelineEntities (message : Str) : List Entity :=
  extract (preprocess message)

example : extract (str "I used 50000 kwh and have 20 employees")
    = [⟨str "energy", str "50000", 9/10⟩, ⟨str "employees", str "20", 9/10⟩] := rfl

example : extract (str "50,000 kWh") = [⟨str "energy", str "50,000", 9/10⟩] := rfl

example : pipelineEntities (str "50,000 kWh") = [⟨str "energy", str "000", 9/10⟩] := rfl

lemma filterMap_types_sublist (tbl : List (Str × (Str → Option Str))) (m : Str) :
    ((tbl.filterMap fun p => (p.2 m).map fun v => (⟨p.1, v, 9/10⟩ : Entity)).map
        Entity.type).Sublist (tbl.map Prod.fst) := by
  induction tbl with
  | nil => simp
  | cons p t ih =>
      rw [List.filterMap_cons]
      cases hp : (p.2 m).map fun v => (⟨p.1, v, 9/10⟩ : Entity) with
      | none =>
          rw [List.map_cons]
          exact ih.cons _
      | some e =>
          have he : e.type = p.1 := by
            rcases Option.map_eq_some'.mp hp with ⟨v, _, rfl⟩
            rfl
          rw [List.map_cons, List.map_cons, he]
          exact ih.cons₂ _

lemma countP_eq_le_one {l : List Str} (h : l.Nodup) (t : Str) :
    l.countP (fun x => decide (x = t)) ≤ 1 := by
  induction l with
  | nil => simp
  | cons a l ih =>
      rcases List.nodup_cons.mp h with ⟨ha, hl⟩
      by_cases hat : a = t
      · subst hat
        rw [List.countP_cons]
        have hz : l.countP (fun x => decide (x = a)) = 0 := by
          rw [List.countP_eq_zero]
          intro x hx
          simp only [decide_eq_true_eq]
          rintro rfl
          exact ha hx
        simp [hz]
      · rw [List.countP_cons]
        have hfa : (decide (a = t)) = false := by simp [hat]
        rw [hfa, if_neg Bool.false_ne_true]
        have := ih hl
        omega

/-- C7: `extract` never returns more than one Entity per entity type (one
per pattern-table key, taken from the first match only), and every
returned Entity has confidence exactly 0.9. -/
theorem extract_one_per_type (m : Str) :
    (∀ t : Str, ((extract m).filter fun e => e.type = t).length ≤ 1)
      ∧ ∀ e ∈ extract m, e.confidence = 9/10 := by
  constructor
  · intro t
    have hsub := filterMap_types_sublist patternsTable m
    calc ((extract m).filter fun e => e.type = t).length
        = (extract m).countP (fun e => decide (e.type = t)) :=
          (List.countP_eq_length_filter _ _).symm
      _ = ((extract m).map Entity.type).countP (fun x => decide (x = t)) := by
          rw [List.countP_map]
          rfl
      _ ≤ (patternsTable.map Prod.fst).countP (fun x => decide (x = t)) :=
          hsub.countP_le _
      _ ≤ 1 := countP_eq_le_one (by decide) t
  · intro e he
    obtain ⟨p, _, hpe⟩ := List.mem_filterMap.mp he
    rcases Option.map_eq_some'.mp hpe with ⟨v, _, rfl⟩
    rfl

lemma energy_entity_mem :
    (⟨str "energy", str "50000", 9/10⟩ : Entity)
      ∈ extract (str "I used 50000 kwh and have 20 employees") := by
  rw [show extract (str "I used 50000 kwh and have 20 employees")
      = [⟨str "energy", str "50000", 9/10⟩, ⟨str "employees", str "20", 9/10⟩] from rfl]
  exact List.mem_cons_self _ _

/-- Witness for C7 on a concrete utterance with two extracted entities. -/
theorem extract_one_per_type_witness :
    ((extract (str "I used 50000 kwh and have 20 employees")).filter
        fun e => e.type = str "energy").length ≤ 1
      ∧ (⟨str "energy", str "50000", 9/10⟩ : Entity).confidence = 9/10 :=
  ⟨(extract_one_per_type _).1 (str "energy"),
   (extract_one_per_type (str "I used 50000 kwh and have 20 employees")).2
     ⟨str "energy", str "50000", 9/10⟩ energy_entity_mem⟩

lemma extract_preprocess_fiftyK_ne :
    extract (preprocess (str "50,000 kWh")) ≠ extract (str "50,000 kWh") := by
  intro h
  rw [show extract (preprocess (str "50,000 kWh"))
      = [⟨str "energy", str "000", 9/10⟩] from rfl] at h
  rw [show extract (str "50,000 kWh")
      = [⟨str "energy", str "50,000", 9/10⟩] from rfl] at h
  have hv : str "000" = str "50,000" :=
    congrArg (fun l : List Entity => (l.headD ⟨[], [], 0⟩).value) h
  exact absurd hv (by decide)

/-- C6 counterexample: on `50,000 kWh` the pipeline extracts from the
preprocessed message (the comma is replaced by a space and the backtracking
match captures `000`), while extraction from the original string captures
`50,000`; so the pipeline does not apply the patterns to the original
utterance. -/
theorem extraction_original_counterexample :
    pipelineEntities (str "50,000 kWh") = [⟨str "energy", str "000", 9/10⟩]
      ∧ extract (str "50,000 kWh") = [⟨str "energy", str "50,000", 9/10⟩]
      ∧ pipelineEntities (str "50,000 kWh") ≠ extract (str "50,000 kWh") :=
  ⟨rfl, rfl, extract_preprocess_fiftyK_ne⟩

/-- C6 (amended): within the pipeline, entity extraction applies each
fixed pattern to the preprocessed (lowercased, trimmed,
punctuation-stripped, whitespace-collapsed) message, emitting per type the
first capture of the first match in that preprocessed string — and this
differs from extracting from the original string. -/
theorem extraction_uses_preprocessed (m : Str) :
    pipelineEntities m = extract (preprocess m)
      ∧ pipelineEntities m
          = (patternsTable.filterMap fun p =>
              (p.2 (preprocess m)).map fun v => (⟨p.1, v, 9/10⟩ : Entity))
      ∧ ∃ m0 : Str, extract (preprocess m0) ≠ extract m0 :=
  ⟨rfl, rfl, ⟨str "50,000 kWh", extract_preprocess_fiftyK_ne⟩⟩

/-! ### Conversation context store (`contextMemory`, `updateContext`) -/

/-- The per-session context held in `IntelligentChatbot.contextMemory`. -/
structure SessionContext where
  intents : List Intent
  entities : List Entity
  topics : List Str
  lastAction : Option Str
deriving DecidableEq

/-- The lazily created fresh context (`{intents: [], entities: [], topics: [],
lastAction: null}`). -/
def emptyContext : SessionContext := ⟨[], [], [], none⟩

/-- The session-keyed context map. -/
def ContextMemory : Type := Str → Option SessionContext

def emptyMemory : ContextMemory := fun _ => none

/-- JS `arr.slice(-n)`: the last `n` elements. -/
def sliceLast (n : Nat) (l : List α) : List α := l.drop (l.length - n)

/-- `IntelligentChatbot.updateContext`: create the session lazily, append
the intent and all entities, set `lastAction`, and — only when the intent
history now exceeds 10 entries — truncate the intent history to its last
10 and the entity history to its last 20. -/
def updateContext (mem : ContextMemory) (intent : Intent) (entities : List Entity)
    (sessionId : Str) : ContextMemory :=
  let ctx := (mem sessionId).getD emptyContext
  let ctx1 : SessionContext :=
    { ctx with
        intents := ctx.intents ++ [intent],
        entities := ctx.entities ++ entities,
        lastAction := some intent.name }
  let ctx2 : SessionContext :=
    if ctx1.intents.length > 10 then
      { ctx1 with
          intents := sliceLast 10 ctx1.intents,
          entities := sliceLast 20 ctx1.entities }
    else ctx1
  fun sid => if sid = sessionId then some ctx2 else mem sid

/-- Reading a session's context: the stored snapshot, or the default
empty context for an unknown session id. -/
def readContext (mem : ContextMemory) (sessionId : Str) : SessionContext :=
  (mem sessionId).getD emptyContext

/-! ### Knowledge base (`CarbonKnowledgeBase`) and response handlers -/

/-- Key lookup in a static string-keyed table. -/
def lookupTbl (tbl : List (Str × α)) (k : Str) : Option α :=
  (tbl.find? fun p => decide (p.1 = k)).map (·.2)

/-- The calculation-relevant fields and grouping of
`extractCalculationData`. -/
structure CalcData where
  hasPartialData : Bool
  mentionedFields : List Str
  missingFields : List Str
  extractedValues : List Entity
deriving DecidableEq

/-- The `data` payloads the handlers attach to a Response. -/
inductive RData where
  | calc (d : CalcData)
  | recs (recommendations : List Str) (industry emissionLevel : Str)
  | concept (c : Str) (related : List Str)
  | compliance (standard region : Str)
  | cost (analysis roi payback : Str)
  | strategies (roadmap : Str) (nextSteps : List Str)
      (targetReduction : Option Nat) (timeframe : Str)
deriving DecidableEq

/-- A handler's Response: `{text, suggestions, confidence, data}`. -/
structure Response where
  text : Str
  suggestions : List Str
  confidence : ℚ
  data : Option RData
deriving DecidableEq

/-- The one kind of exception the dispatch can raise: calling a method
that is defined nowhere in the repository (a TypeError in JS). -/
inductive JsError where
  | undefinedMethod (name : Str)
deriving DecidableEq

def calcFields : List Str :=
  [str "energy", str "fuel", str "employees", str "travel", str "waste"]

/-- `extractCalculationData`. -/
def extractCalculationData (entities : List Entity) : CalcData :=
  let mentioned := entities.filter fun e => decide (e.type ∈ calcFields)
  let mentionedFields : List Str := mentioned.map (·.type)
  let missingFields := calcFields.filter fun f => !(decide (f ∈ mentionedFields))
  { hasPartialData := decide (0 < mentioned.length),
    mentionedFields := mentionedFields,
    missingFields := missingFields,
    extractedValues := mentioned }

def extractIndustry (entities : List Entity) : Str :=
  match entities.find? fun e => decide (e.type = str "industry") with
  | some e => e.value
  | none => str "general"

def extractEmissionLevel (entities : List Entity) : Str :=
  match entities.find? fun e => decide (e.type = str "emission_level") with
  | some e => e.value
  | none => str "medium"

def extractConcept (entities : List Entity) : Str :=
  match entities.find? fun e => decide (e.type = str "concept") with
  | some e => e.value
  | none => str "carbon_footprint"

def extractStandard (entities : List Entity) : Str :=
  match entities.find? fun e => decide (e.type = str "standard") with
  | some e => e.value
  | none => str "ghg_protocol"

def extractRegion (entities : List Entity) : Str :=
  match entities.find? fun e => decide (e.type = str "region") with
  | some e => e.value
  | none => str "global"

def extractAnalysisType (entities : List Entity) : Str :=
  match entities.find? fun e => decide (e.type = str "analysis_type") with
  | some e => e.value
  | none => str "cost_benefit"

def extractTimeframe (entities : List Entity) : Str :=
  match entities.find? fun e => decide (e.type = str "timeframe") with
  | some e => e.value
  | none => str "5_years"

/-- JS `parseInt` restricted to the digit strings the percentage regex
produces: `none` models NaN. -/
def parseIntJS (s : Str) : Option Nat :=
  let ds := s.takeWhile Char.isDigit
  if ds.isEmpty then none
  else some (ds.foldl (fun n c => n * 10 + (c.toNat - '0'.toNat)) 0)

/-- `extractTargetReduction`: `parseInt` of the percentage entity, or 50. -/
def extractTargetReduction (entities : List Entity) : Option Nat :=
  match entities.find? fun e => decide (e.type = str "percentage") with
  | some e => parseIntJS e.value
  | none => some 50

/-- Rendering a JS number (or NaN) into a template string. -/
def showNumJS : Option Nat → Str
  | some n => str (toString n)
  | none => str "NaN"

/-- JS `a || b` on strings: `b` when `a` is empty (falsy). -/
def orElseStr (a b : Str) : Str := if a = [] then b else a

/-- One entry of the knowledge base's `concepts` table. -/
structure ConceptEntry where
  text : Str
  related : List Str
  confidence : ℚ
deriving DecidableEq

/-- `CarbonKnowledgeBase.concepts`. -/
def concepts : List (Str × ConceptEntry) :=
  [ (str "carbon_footprint",
      ⟨str "A carbon footprint is the total amount of greenhouse gases produced directly and indirectly by human activities, measured in CO2 equivalent. It includes emissions from energy use, transportation, waste, and supply chains.",
       [str "scope_1", str "scope_2", str "scope_3"], 95/100⟩),
    (str "scope_1",
      ⟨str "Scope 1 emissions are direct greenhouse gas emissions from sources owned or controlled by your organization, such as fuel combustion in company vehicles or on-site energy generation.",
       [str "scope_2", str "scope_3", str "ghg_protocol"], 95/100⟩),
    (str "scope_2",
      ⟨str "Scope 2 emissions are indirect emissions from purchased electricity, steam, heating, or cooling consumed by your organization.",
       [str "scope_1", str "scope_3", str "renewable_energy"], 95/100⟩) ]

/-- The result of `explainConcept`. -/
structure Explanation where
  text : Str
  related : List Str
  confidence : ℚ
  relatedTopics : List Str
deriving DecidableEq

/-- `CarbonKnowledgeBase.explainConcept`. Each related key holds exactly
one underscore, so JS's first-occurrence `replace` equals a map. -/
def explainConcept (concept : Str) : Explanation :=
  match lookupTbl concepts concept with
  | some info =>
      { text := info.text, related := info.related, confidence := info.confidence,
        relatedTopics := info.related.map fun r =>
          str "Learn about " ++ r.map fun c => if c = '_' then ' ' else c }
  | none =>
      { text := str "I'd be happy to explain carbon accounting concepts. Try asking about carbon footprint, scope emissions, or GHG protocol.",
        related := [], confidence := 6/10,
        relatedTopics := [str "Carbon footprint basics", str "Emission scopes",
          str "GHG Protocol"] }

/-- `CarbonKnowledgeBase.getRecommendations`: the base list, with one
industry-specific item unshifted for technology or manufacturing. -/
def getRecommendations (industry level : Str) : List Str :=
  let base :=
    [str "🔋 Switch to renewable energy sources",
     str "📊 Implement comprehensive emissions tracking",
     str "🚗 Optimize transportation and logistics",
     str "♻️ Establish circular economy practices",
     str "🎯 Set science-based reduction targets"]
  if industry = str "technology" then
    str "☁️ Optimize cloud infrastructure and data centers" :: base
  else if industry = str "manufacturing" then
    str "🏭 Implement lean manufacturing processes" :: base
  else base

/-- `CarbonKnowledgeBase.getComplianceInfo`'s table. -/
def complianceTable : List (Str × Str) :=
  [ (str "ghg_protocol",
      str "The GHG Protocol is the global standard for measuring and managing greenhouse gas emissions. It provides frameworks for Scope 1, 2, and 3 emissions accounting."),
    (str "iso_14064",
      str "ISO 14064 is an international standard for greenhouse gas accounting and verification, providing principles and requirements for quantification and reporting.") ]

/-- `CarbonKnowledgeBase.getComplianceInfo`: lookup with the GHG Protocol
text as fallback; `region` is accepted but unused, as in the source. -/
def getComplianceInfo (standard region : Str) : Str :=
  (lookupTbl complianceTable standard).getD
    ((lookupTbl complianceTable (str "ghg_protocol")).getD [])

/-- `CarbonKnowledgeBase.getCostAnalysis` (fields analysis/roi/payback). -/
def getCostAnalysis (analysisType timeframe : Str) : Str × Str × Str :=
  (str "Carbon reduction investments typically show positive ROI within "
      ++ timeframe
      ++ str ". Energy efficiency measures often pay back in 2-4 years, while renewable energy projects show returns in 5-8 years.",
   str "15-25% annually", str "3-6 years average")

/-- `CarbonKnowledgeBase.getReductionStrategies`: the trimmed roadmap
template and the fixed next steps. -/
def getReductionStrategies (targetReduction : Option Nat) (timeframe industry : Str) :
    Str × List Str :=
  (str "Phase 1 (Year 1): Quick wins - Energy efficiency, waste reduction (10-15% reduction)\nPhase 2 (Years 2-3): Infrastructure - Renewable energy, equipment upgrades (20-30% reduction)  \nPhase 3 (Years 4-5): Advanced - Supply chain optimization, innovation ("
      ++ showNumJS targetReduction ++ str "% total reduction)",
   [str "Conduct energy audit", str "Set interim milestones",
    str "Develop investment plan", str "Engage suppliers"])

/-- The fixed greeting texts of `handleGreeting`. -/
def greetingTexts : List Str :=
  [str "Hello! 👋 I'm your AI-powered carbon accounting assistant. I use advanced machine learning to help you understand and reduce your carbon footprint.",
   str "Hi there! 🌱 Welcome to our AI-driven carbon calculator. I'm here to help you with intelligent insights about your environmental impact.",
   str "Greetings! 🤖 I'm equipped with natural language processing and machine learning algorithms to assist you with carbon accounting questions.",
   str "Hello! ✨ I'm your smart carbon footprint advisor, powered by AI. How can I help you achieve your sustainability goals today?"]

/-- `handleGreeting`; `r % 4` models `Math.floor(Math.random() * 4)`. -/
def handleGreeting (entities : List Entity) (context : SessionContext) (r : Nat) :
    Response :=
  { text := greetingTexts.getD (r % greetingTexts.length) [],
    suggestions := [str "Calculate my carbon footprint",
      str "How does AI improve carbon calculations?",
      str "Get carbon reduction recommendations",
      str "Explain machine learning in sustainability"],
    confidence := 95/100, data := none }

/-- The fixed goodbye texts of `handleGoodbye`. -/
def goodbyeTexts : List Str :=
  [str "Thank you for using our AI-powered carbon calculator! 🌍 Keep making sustainable choices!",
   str "Goodbye! 👋 Remember, every action towards sustainability counts. Come back anytime for more AI insights!",
   str "See you later! 🌱 Our AI is always here when you need carbon accounting assistance.",
   str "Farewell! ✨ Keep reducing that carbon footprint with AI-driven strategies!"]

/-- `handleGoodbye`. -/
def handleGoodbye (entities : List Entity) (context : SessionContext) (r : Nat) :
    Response :=
  { text := goodbyeTexts.getD (r % goodbyeTexts.length) [],
    suggestions := [], confidence := 95/100, data := none }

/-- `handleCarbonCalculation`. -/
def handleCarbonCalculation (entities : List Entity) (context : SessionContext) :
    Response :=
  let suggestions := [str "Try our Carbon Calculator above",
    str "Tell me your energy consumption", str "What's your company size?",
    str "Need help with data collection?"]
  let extractedData := extractCalculationData entities
  if extractedData.hasPartialData then
    { text := str "I can help you calculate your carbon footprint! I see you mentioned "
        ++ List.intercalate (str ", ") extractedData.mentionedFields
        ++ str ". To get an accurate calculation, I'll also need: "
        ++ List.intercalate (str ", ") extractedData.missingFields
        ++ str ". You can use our calculator above or tell me the values here.",
      suggestions := suggestions, confidence := 9/10,
      data := some (.calc extractedData) }
  else
    { text := str "I'd be happy to help calculate your carbon footprint! You can use our interactive calculator above, or tell me about your company's energy usage, fuel consumption, number of employees, business travel, and waste generation.",
      suggestions := suggestions, confidence := 85/100, data := none }

/-- `handleRecommendations`: when `context.lastAction` is
`calculate_carbon` the source invokes `this.personalizeRecommendations`,
a method defined nowhere in the repository — a TypeError in JS. -/
def handleRecommendations (entities : List Entity) (context : SessionContext) :
    Except JsError Response :=
  let industry := extractIndustry entities
  let emissionLevel := extractEmissionLevel entities
  let recommendations := getRecommendations industry emissionLevel
  if context.lastAction = some (str "calculate_carbon") then
    .error (.undefinedMethod (str "personalizeRecommendations"))
  else
    .ok { text := str "Here are personalized recommendations for "
            ++ orElseStr industry (str "your business") ++ str ":\n\n"
            ++ List.intercalate (str "\n\n") recommendations,
          suggestions := [str "How much can I save?", str "Implementation timeline?",
            str "Industry best practices", str "Government incentives?"],
          confidence := 92/100,
          data := some (.recs recommendations industry emissionLevel) }

/-- `handleConceptExplanation`. -/
def handleConceptExplanation (entities : List Entity) (context : SessionContext) :
    Response :=
  let concept := extractConcept entities
  let explanation := explainConcept concept
  { text := explanation.text, suggestions := explanation.relatedTopics,
    confidence := explanation.confidence,
    data := some (.concept concept explanation.related) }

/-- `handleComplianceQuestions`. -/
def handleComplianceQuestions (entities : List Entity) (context : SessionContext) :
    Response :=
  let standard := extractStandard entities
  let region := extractRegion entities
  let information := getComplianceInfo standard region
  { text := information,
    suggestions := [str "Implementation steps?", str "Required documentation?",
      str "Certification process?", str "Deadlines and timelines?"],
    confidence := 9/10, data := some (.compliance standard region) }

/-- `handleCostAnalysis`. -/
def handleCostAnalysis (entities : List Entity) (context : SessionContext) :
    Response :=
  let analysisType := extractAnalysisType entities
  let timeframe := extractTimeframe entities
  let costData := getCostAnalysis analysisType timeframe
  { text := costData.1,
    suggestions := [str "ROI calculations?", str "Financing options?",
      str "Government incentives?", str "Payback period?"],
    confidence := 85/100,
    data := some (.cost costData.1 costData.2.1 costData.2.2) }

/-- `handleReductionStrategies`. -/
def handleReductionStrategies (entities : List Entity) (context : SessionContext) :
    Response :=
  let targetReduction := extractTargetReduction entities
  let timeframe := extractTimeframe entities
  let industry := extractIndustry entities
  let strategies := getReductionStrategies targetReduction timeframe industry
  { text := str "Here's a strategic roadmap for achieving " ++ showNumJS targetReduction
      ++ str "% reduction:\n\n" ++ strategies.1,
    suggestions := strategies.2,
    confidence := 87/100,
    data := some (.strategies strategies.1 strategies.2 targetReduction timeframe) }

/-- The `conceptResponses` table of `handleBasicConcepts`. -/
def conceptResponses : List (Str × Str) :=
  [ (str "carbon footprint",
      str "A carbon footprint is the total amount of greenhouse gases (including CO2) produced directly or indirectly by human activities, measured in CO2 equivalent."),
    (str "scope 1",
      str "Scope 1 emissions are direct emissions from sources owned or controlled by your organization, like company vehicles and on-site fuel combustion."),
    (str "scope 2",
      str "Scope 2 emissions are indirect emissions from purchased electricity, heat, or steam consumed by your organization."),
    (str "scope 3",
      str "Scope 3 emissions are all other indirect emissions in your value chain, including business travel, employee commuting, and supply chain activities."),
    (str "emission factor",
      str "An emission factor is a representative value that relates the quantity of a pollutant released to the atmosphere with an activity associated with that release."),
    (str "renewable energy",
      str "Renewable energy comes from sources that naturally replenish, like solar, wind, hydro, and geothermal power, producing minimal greenhouse gas emissions.") ]

/-- `handleBasicConcepts`: the source reads `entities.concept`, which on
an entity array is `undefined` in JS, so the key is always `general` and
the table lookup falls through to the default text. -/
def handleBasicConcepts (entities : List Entity) (context : SessionContext) :
    Response :=
  let message := str "general"
  let response := (lookupTbl conceptResponses (lowerStr message)).getD
    (str "Carbon accounting involves measuring, monitoring, and managing greenhouse gas emissions from business activities. Our AI system helps automate these calculations with high precision.")
  { text := response,
    suggestions := [str "Calculate my carbon footprint",
      str "What are Scope 1 emissions?", str "Explain emission factors",
      str "How does AI help with carbon accounting?"],
    confidence := 9/10, data := none }

/-- The `usageGuides` table of `handleCalculatorUsage` (only `.energy` is
ever read by the source). -/
def usageGuides : List (Str × Str) :=
  [ (str "energy",
      str "Enter your monthly energy consumption in kWh. You can find this on your electricity bills. Our AI will apply appropriate emission factors based on your location's energy grid mix."),
    (str "travel",
      str "Input business travel data including distance, mode of transport, and frequency. Our ML algorithms consider factors like fuel efficiency and occupancy rates for accurate calculations."),
    (str "waste",
      str "Add waste generation data by type (general, recycling, food waste). The AI considers local waste processing methods and disposal emissions."),
    (str "fuel",
      str "Select your fuel type from our comprehensive database. Our system automatically applies the most current emission factors and efficiency ratings."),
    (str "remote",
      str "Specify the percentage of remote work. This helps our AI calculate reduced office energy consumption and commuting emissions.") ]

/-- `handleCalculatorUsage`. -/
def handleCalculatorUsage (entities : List Entity) (context : SessionContext) :
    Response :=
  { text := str "🔧 **Calculator Usage Guide**: "
      ++ (lookupTbl usageGuides (str "energy")).getD []
      ++ str "\n\n💡 **Pro Tip**: Our AI validates your inputs and suggests improvements for more accurate calculations.",
    suggestions := [str "How to add travel data?", str "What fuel types are supported?",
      str "How to include waste data?", str "Start carbon calculation"],
    confidence := 95/100, data := none }

/-- `Object.values(benchmarkData)` of `handleIndustryBenchmarks`. -/
def benchmarkValues : List Str :=
  [str "Tech companies average 15-25 tonnes CO2e per employee annually. Top performers achieve under 10 tonnes through renewable energy and efficient operations.",
   str "Manufacturing sector averages 50-150 tonnes CO2e per $M revenue. Leading companies use lean processes and circular economy principles.",
   str "Retail companies typically emit 20-40 tonnes CO2e per $M revenue. Best practices include sustainable packaging and supply chain optimization.",
   str "Financial services average 5-15 tonnes CO2e per employee. Leaders focus on green investments and digital transformation.",
   str "Healthcare organizations average 30-50 tonnes CO2e per bed. Efficiency measures include energy management and sustainable procurement."]

/-- `handleIndustryBenchmarks`. -/
def handleIndustryBenchmarks (entities : List Entity) (context : SessionContext) :
    Response :=
  { text := str "📊 **Industry Benchmarks**: Our AI analyzes your performance against industry peers using machine learning models trained on thousands of companies.\n\n"
      ++ List.intercalate (str "\n\n") benchmarkValues,
    suggestions := [str "Compare my company performance",
      str "Get industry-specific recommendations", str "View detailed benchmarks",
      str "Calculate my footprint"],
    confidence := 88/100, data := none }

/-- `handleAdvancedAnalytics` (a fixed concatenated text). -/
def handleAdvancedAnalytics (entities : List Entity) (context : SessionContext) :
    Response :=
  { text := str "🔮 **Advanced AI Analytics**: Our machine learning models provide:\n\n📈 **Predictive Forecasting**: ML algorithms predict your future emissions based on growth patterns, seasonal trends, and industry data\n\n💰 **Cost-Benefit Analysis**: AI calculates ROI for reduction initiatives, factoring in energy prices, carbon costs, and operational savings\n\n🎯 **Smart Targets**: Algorithms recommend achievable reduction targets based on your industry, size, and current performance\n\n⚡ **Real-time Insights**: AI continuously analyzes your data to identify optimization opportunities and track progress",
    suggestions := [str "Predict next year's emissions",
      str "Calculate carbon neutrality timeline", str "Analyze reduction potential",
      str "Get cost savings estimates"],
    confidence := 92/100, data := none }

/-- `handleAIMLFeatures` (a fixed concatenated text). -/
def handleAIMLFeatures (entities : List Entity) (context : SessionContext) :
    Response :=
  { text := str "🤖 **AI/ML Features**: Our platform uses cutting-edge artificial intelligence:\n\n🧠 **Neural Networks**: Deep learning models trained on global emission datasets for accurate factor calculations\n\n🔍 **Pattern Recognition**: AI identifies hidden patterns in your data to suggest optimization opportunities\n\n📊 **Confidence Scoring**: Machine learning algorithms assess data quality and provide confidence levels for each calculation\n\n🎯 **Smart Recommendations**: AI generates personalized action plans based on your specific situation and industry best practices\n\n📈 **Continuous Learning**: The system improves accuracy as it processes more data and user feedback",
    suggestions := [str "How does the AI calculate confidence?",
      str "What ML models are used?", str "Get AI recommendations",
      str "Learn about neural networks"],
    confidence := 95/100, data := none }

/-- `handleReportingTracking` (a fixed concatenated text). -/
def handleReportingTracking (entities : List Entity) (context : SessionContext) :
    Response :=
  { text := str "📋 **Reporting & Tracking**: Our AI-powered reporting system provides:\n\n📊 **Automated Reports**: AI generates compliance-ready reports for GHG Protocol, CDP, and other standards\n\n📈 **Trend Analysis**: Machine learning tracks your progress over time and identifies improvement opportunities\n\n🎯 **Science-Based Targets**: AI helps set and monitor targets aligned with climate science\n\n🔄 **Real-time Monitoring**: Continuous tracking with alerts when emissions exceed thresholds\n\n📱 **Dashboard Analytics**: Interactive visualizations powered by our analytics engine",
    suggestions := [str "Generate emissions report", str "Set science-based targets",
      str "Track monthly progress", str "View analytics dashboard"],
    confidence := 9/10, data := none }

/-- `Object.values(industryAdvice)` of `handleIndustrySpecific`. -/
def industryAdviceValues : List Str :=
  [str "🖥️ **Tech Industry**: Focus on green software practices, renewable energy for data centers, and sustainable hardware lifecycle management.",
   str "🏭 **Manufacturing**: Implement lean processes, energy-efficient equipment, and circular economy principles for waste reduction.",
   str "🛍️ **Retail**: Optimize packaging, implement sustainable supply chains, and focus on last-mile delivery efficiency.",
   str "💼 **Finance**: Develop green investment portfolios, digitalize operations, and measure financed emissions.",
   str "🏥 **Healthcare**: Focus on energy management, sustainable procurement, and waste reduction in medical facilities."]

/-- `handleIndustrySpecific`. -/
def handleIndustrySpecific (entities : List Entity) (context : SessionContext) :
    Response :=
  { text := str "🏢 **Industry-Specific Solutions**: Our AI provides tailored recommendations for your sector:\n\n"
      ++ List.intercalate (str "\n\n") industryAdviceValues,
    suggestions := [str "Get tech industry tips", str "Manufacturing best practices",
      str "Retail sustainability guide", str "Healthcare carbon reduction"],
    confidence := 87/100, data := none }

/-- `handleGeneralInfo` (a fixed concatenated text). -/
def handleGeneralInfo (entities : List Entity) (context : SessionContext) :
    Response :=
  { text := str "🌱 **About EcoLeaf Analytics**: We're pioneering AI-powered carbon accounting solutions.\n\n🚀 **Our Mission**: Making carbon accounting accessible and accurate through artificial intelligence\n\n🤖 **Technology**: Advanced machine learning models trained on global emissions data\n\n🎯 **Services**: Carbon calculation, benchmarking, reduction planning, and compliance reporting\n\n📞 **Contact**: Ready to transform your sustainability strategy with AI? Request a demo to see our platform in action!",
    suggestions := [str "Request a demo", str "Learn about our AI technology",
      str "Calculate carbon footprint", str "Get started with sustainability"],
    confidence := 88/100, data := none }

/-! ### Response dispatch (`generateResponse`) and the message pipeline -/

/-- `IntelligentChatbot.generateResponse`: string-keyed dispatch on the
intent name. The `data_interpretation` case invokes
`this.handleDataInterpretation` and the default case invokes
`this.handleGeneralQuery`; neither method is defined anywhere in the
repository, so in JS those branches throw a TypeError, modelled as
`Except.error`. The context is `this.contextMemory[sessionId] || {}`. -/
def generateResponse (mem : ContextMemory) (intent : Intent) (entities : List Entity)
    (sessionId : Str) (r : Nat) : Except JsError Response :=
  let context := (mem sessionId).getD emptyContext
  if intent.name = str "greeting" then .ok (handleGreeting entities context r)
  else if intent.name = str "goodbye" then .ok (handleGoodbye entities context r)
  else if intent.name = str "basic_concepts" then .ok (handleBasicConcepts entities context)
  else if intent.name = str "calculator_usage" then .ok (handleCalculatorUsage entities context)
  else if intent.name = str "industry_benchmarks" then .ok (handleIndustryBenchmarks entities context)
  else if intent.name = str "recommendations" then handleRecommendations entities context
  else if intent.name = str "advanced_analytics" then .ok (handleAdvancedAnalytics entities context)
  else if intent.name = str "ai_ml_features" then .ok (handleAIMLFeatures entities context)
  else if intent.name = str "reporting_tracking" then .ok (handleReportingTracking entities context)
  else if intent.name = str "industry_specific" then .ok (handleIndustrySpecific entities context)
  else if intent.name = str "general_info" then .ok (handleGeneralInfo entities context)
  else if intent.name = str "calculate_carbon" then .ok (handleCarbonCalculation entities context)
  else if intent.name = str "get_recommendations" then handleRecommendations entities context
  else if intent.name = str "explain_concept" then .ok (handleConceptExplanation entities context)
  else if intent.name = str "compliance_standards" then .ok (handleComplianceQuestions entities context)
  else if intent.name = str "cost_analysis" then .ok (handleCostAnalysis entities context)
  else if intent.name = str "reduction_strategies" then .ok (handleReductionStrategies entities context)
  else if intent.name = str "data_interpretation" then
    .error (.undefinedMethod (str "handleDataInterpretation"))
  else .error (.undefinedMethod (str "handleGeneralQuery"))

/-- The case labels of `generateResponse`'s switch, in order. -/
def dispatchNames : List Str :=
  [str "greeting", str "goodbye", str "basic_concepts", str "calculator_usage",
   str "industry_benchmarks", str "recommendations", str "advanced_analytics",
   str "ai_ml_features", str "reporting_tracking", str "industry_specific",
   str "general_info", str "calculate_carbon", str "get_recommendations",
   str "explain_concept", str "compliance_standards", str "cost_analysis",
   str "reduction_strategies", str "data_interpretation"]

/-- What `processMessage` hands back to the caller. -/
structure ProcOut where
  response : Str
  suggestions : List Str
  data : Option RData
  confidence : ℚ
deriving DecidableEq

/-- The fixed fallback texts of `getFallbackResponse`. -/
def fallbackTexts : List Str :=
  [str "I'm here to help with carbon accounting questions. Could you rephrase that?",
   str "I specialize in sustainability and carbon footprint topics. What would you like to know?",
   str "Let me help you with carbon accounting. Try asking about calculations, recommendations, or industry standards.",
   str "I can assist with carbon footprint calculations, reduction strategies, and compliance questions. What interests you?"]

/-- `IntelligentChatbot.getFallbackResponse`; `r % 4` models
`Math.floor(Math.random() * 4)`. -/
def getFallbackResponse (r : Nat) : ProcOut :=
  { response := fallbackTexts.getD (r % fallbackTexts.length) [],
    suggestions := [str "Calculate carbon footprint",
      str "Get reduction recommendations", str "Learn about standards",
      str "Industry best practices"],
    confidence := 1/2, data := none }

/-- The catch of `processMessage`: a normally produced Response is
reshaped into the returned object, a thrown error becomes
`getFallbackResponse`. -/
def catchToFallback (r : Nat) : Except JsError Response → ProcOut
  | .ok resp =>
      { response := resp.text, suggestions := resp.suggestions,
        data := resp.data, confidence := resp.confidence }
  | .error _ => getFallbackResponse r

/-- `IntelligentChatbot.processMessage`: preprocess, classify, extract,
update the session context, generate the response; any error thrown on
the way (here: only the dispatch's undefined-method branches) is caught
and turned into `getFallbackResponse`. The conversation-history and
learning-model writes after response generation never throw and do not
affect the returned value, so the state this model threads is the context
memory. -/
def processMessage (mem : ContextMemory) (message : Str) (sessionId : Str) (r : Nat) :
    ProcOut × ContextMemory :=
  let cleanMessage := preprocess message
  let intent := classify cleanMessage
  let entities := extract cleanMessage
  let mem2 := updateContext mem intent entities sessionId
  (catchToFallback r (generateResponse mem2 intent entities sessionId r), mem2)

lemma generateResponse_unknown (mem : ContextMemory) (intent : Intent)
    (entities : List Entity) (sessionId : Str) (r : Nat)
    (h : intent.name ∉ dispatchNames) :
    generateResponse mem intent entities sessionId r
      = .error (.undefinedMethod (str "handleGeneralQuery")) := by
  simp only [dispatchNames, List.mem_cons, List.mem_singleton, not_or] at h
  obtain ⟨h1, h2, h3, h4, h5, h6, h7, h8, h9, h10, h11, h12, h13, h14, h15, h16,
    h17, h18, -⟩ := h
  simp only [generateResponse, if_neg h1, if_neg h2, if_neg h3, if_neg h4,
    if_neg h5, if_neg h6, if_neg h7, if_neg h8, if_neg h9, if_neg h10,
    if_neg h11, if_neg h12, if_neg h13, if_neg h14, if_neg h15, if_neg h16,
    if_neg h17, if_neg h18]

lemma getFallbackResponse_mem (r : Nat) :
    (getFallbackResponse r).response ∈ fallbackTexts := by
  have hlt : r % fallbackTexts.length < fallbackTexts.length :=
    Nat.mod_lt _ (by decide)
  simp only [getFallbackResponse]
  rw [List.getD_eq_getElem _ _ hlt]
  exact List.getElem_mem _

/-- C1 (amended): an intent whose name is none of the dispatch table's
case labels reaches the default branch, whose handler
(`handleGeneralQuery`) is defined nowhere, so `generateResponse` throws
rather than returning; the enclosing `processMessage` then returns the
fallback output, whose text is drawn by the random index from the fixed
fallback list and whose confidence is exactly 0.5. -/
theorem generateResponse_default_throws (mem : ContextMemory) (intent : Intent)
    (entities : List Entity) (sessionId : Str) (r : Nat)
    (h : intent.name ∉ dispatchNames) :
    generateResponse mem intent entities sessionId r
        = .error (.undefinedMethod (str "handleGeneralQuery"))
      ∧ (getFallbackResponse r).confidence = 1/2
      ∧ (getFallbackResponse r).response ∈ fallbackTexts :=
  ⟨generateResponse_unknown mem intent entities sessionId r h, rfl,
   getFallbackResponse_mem r⟩

/-- Witness for C1 at a concrete unroutable intent. -/
theorem generateResponse_default_throws_witness :
    generateResponse emptyMemory ⟨str "unknown", 2/10, []⟩ [] (str "default") 0
        = .error (.undefinedMethod (str "handleGeneralQuery"))
      ∧ (getFallbackResponse 0).confidence = 1/2 :=
  ⟨(generateResponse_default_throws emptyMemory ⟨str "unknown", 2/10, []⟩ []
      (str "default") 0 (by decide)).1,
   (generateResponse_default_throws emptyMemory ⟨str "unknown", 2/10, []⟩ []
      (str "default") 0 (by decide)).2.1⟩

/-- C1 counterexample: at the concrete intent `unknown`,
`generateResponse` does not return a Response at all — it throws the
undefined-method error for `handleGeneralQuery` — so the claim that it
returns a fallback Response with confidence 0.5 fails as stated. -/
theorem generateResponse_default_counterexample :
    generateResponse emptyMemory ⟨str "unknown", 2/10, []⟩ [] (str "default") 1
      = .error (.undefinedMethod (str "handleGeneralQuery")) := by
  exact generateResponse_unknown _ _ _ _ _ (by decide)

/-- C2: `processMessage` always returns an output, and whenever the
response-generation step throws, the output is exactly the fallback
response with confidence 0.5 — the error itself is never surfaced. -/
theorem processMessage_total (mem : ContextMemory) (message : Str)
    (sessionId : Str) (r : Nat) :
    (∃ out mem2, processMessage mem message sessionId r = (out, mem2))
      ∧ (∀ e : JsError,
          generateResponse
              (updateContext mem (classify (preprocess message))
                (extract (preprocess message)) sessionId)
              (classify (preprocess message)) (extract (preprocess message))
              sessionId r
            = .error e
          → (processMessage mem message sessionId r).1 = getFallbackResponse r
              ∧ (processMessage mem message sessionId r).1.confidence = 1/2) := by
  constructor
  · exact ⟨_, _, rfl⟩
  · intro e he
    have h1 : processMessage mem message sessionId r
        = (catchToFallback r
            (generateResponse
              (updateContext mem (classify (preprocess message))
                (extract (preprocess message)) sessionId)
              (classify (preprocess message)) (extract (preprocess message))
              sessionId r),
           updateContext mem (classify (preprocess message))
             (extract (preprocess message)) sessionId) := rfl
    rw [h1, he]
    exact ⟨rfl, rfl⟩

/-- Witness for C2: on `xyzzy plugh` the classifier yields `unknown`, the
dispatch throws, and the pipeline returns the fallback with confidence
0.5. -/
theorem processMessage_total_witness :
    (processMessage emptyMemory (str "xyzzy plugh") (str "default") 0).1
        = getFallbackResponse 0
      ∧ (processMessage emptyMemory (str "xyzzy plugh") (str "default") 0).1.confidence
        = 1/2 :=
  (processMessage_total emptyMemory (str "xyzzy plugh") (str "default") 0).2
    (.undefinedMethod (str "handleGeneralQuery"))
    (generateResponse_unknown _ _ _ _ _ (by
      rw [classify_name_eq, if_pos (by decide : (bestOf (preprocess (str "xyzzy plugh"))).2 = 0)]
      decide))

/-- C9: with `lastAction = calculate_carbon` the recommendations handler
invokes the undefined `personalizeRecommendations` and throws instead of
returning the personalized Response; with any other `lastAction` it
returns the generic variant normally, with confidence 0.92 and data. -/
theorem handleRecommendations_personalized_throws :
    handleRecommendations []
        { emptyContext with lastAction := some (str "calculate_carbon") }
      = .error (.undefinedMethod (str "personalizeRecommendations"))
      ∧ ∃ resp : Response,
          handleRecommendations [] emptyContext = .ok resp
            ∧ resp.confidence = 92/100
            ∧ resp.data = some (.recs (getRecommendations (str "general") (str "medium"))
                (str "general") (str "medium")) :=
  ⟨rfl, ⟨_, rfl, rfl, rfl⟩⟩

/-! ### C5/C8: behaviour of the context store under updates -/

/-- A concrete intent used by the context-store counterexamples. -/
def cIntent : Intent := ⟨str "calculate_carbon", 0, []⟩

/-- A concrete eight-entity list (one entity per extractor type), the
largest batch one pipeline call can append. -/
def ents8 : List Entity := patternsTable.map fun p => ⟨p.1, str "1", 9/10⟩

/-- C5 counterexample: three updates, each appending the eight-type
entity batch, leave the session's entity history at 24 entries — the
truncation to 20 runs only when the intent history exceeds 10, so the
entity history is not bounded by 20 after every update. -/
theorem updateContext_entities_counterexample :
    (readContext
        (updateContext
          (updateContext
            (updateContext emptyMemory cIntent ents8 (str "s"))
            cIntent ents8 (str "s"))
          cIntent ents8 (str "s"))
        (str "s")).entities.length = 24
      ∧ ¬((readContext
            (updateContext
              (updateContext
                (updateContext emptyMemory cIntent ents8 (str "s"))
                cIntent ents8 (str "s"))
              cIntent ents8 (str "s"))
            (str "s")).entities.length ≤ 20) := by
  have h : (readContext
      (updateContext
        (updateContext
          (updateContext emptyMemory cIntent ents8 (str "s"))
          cIntent ents8 (str "s"))
        cIntent ents8 (str "s"))
      (str "s")).entities.length = 24 := rfl
  exact ⟨h, by rw [h]; omega⟩

lemma readContext_updateContext (mem : ContextMemory) (intent : Intent)
    (entities : List Entity) (sid : Str) :
    readContext (updateContext mem intent entities sid) sid
      = (if (readContext mem sid).intents.length + 1 > 10 then
          { intents := sliceLast 10 ((readContext mem sid).intents ++ [intent]),
            entities := sliceLast 20 ((readContext mem sid).entities ++ entities),
            topics := (readContext mem sid).topics,
            lastAction := some intent.name }
        else
          { intents := (readContext mem sid).intents ++ [intent],
            entities := (readContext mem sid).entities ++ entities,
            topics := (readContext mem sid).topics,
            lastAction := some intent.name }) := by
  simp [readContext, updateContext]

/-- C5 (amended): each update appends the given intent and entities and
sets `lastAction`; the truncation of the intent history to its last 10
and of the entity history to its last 20 happens only when the
post-append intent history exceeds 10 entries — hence the intent history
stays within 10 once it is within 10, while the entity history can
exceed 20 between truncations. -/
theorem updateContext_truncation (mem : ContextMemory) (intent : Intent)
    (entities : List Entity) (sid : Str) :
    (readContext (updateContext mem intent entities sid) sid).lastAction
        = some intent.name
      ∧ (if (readContext mem sid).intents.length + 1 > 10 then
            (readContext (updateContext mem intent entities sid) sid).intents
              = sliceLast 10 ((readContext mem sid).intents ++ [intent])
            ∧ (readContext (updateContext mem intent entities sid) sid).entities
              = sliceLast 20 ((readContext mem sid).entities ++ entities)
          else
            (readContext (updateContext mem intent entities sid) sid).intents
              = (readContext mem sid).intents ++ [intent]
            ∧ (readContext (updateContext mem intent entities sid) sid).entities
              = (readContext mem sid).entities ++ entities)
      ∧ ((readContext mem sid).intents.length ≤ 10
          → (readContext (updateContext mem intent entities sid) sid).intents.length
              ≤ 10) := by
  rw [readContext_updateContext]
  by_cases hc : (readContext mem sid).intents.length + 1 > 10
  · rw [if_pos hc, if_pos hc]
    refine ⟨rfl, ⟨rfl, rfl⟩, fun _ => ?_⟩
    simp only [sliceLast, List.length_drop, List.length_append, List.length_cons,
      List.length_nil]
    omega
  · rw [if_neg hc, if_neg hc]
    refine ⟨rfl, ⟨rfl, rfl⟩, fun h10 => ?_⟩
    simp only [List.length_append, List.length_cons, List.length_nil]
    omega

/-- Witness for C5 (amended) at a concrete first update. -/
theorem updateContext_truncation_witness :
    (readContext (updateContext emptyMemory cIntent ents8 (str "s")) (str "s")).lastAction
        = some cIntent.name
      ∧ (readContext (updateContext emptyMemory cIntent ents8 (str "s"))
            (str "s")).intents.length ≤ 10 :=
  ⟨(updateContext_truncation emptyMemory cIntent ents8 (str "s")).1,
   (updateContext_truncation emptyMemory cIntent ents8 (str "s")).2.2 (by decide)⟩

/-- Sequential updates on one session id. -/
def applyUpdates (mem : ContextMemory) (l : List (Intent × List Entity)) (sid : Str) :
    ContextMemory :=
  l.foldl (fun m p => updateContext m p.1 p.2 sid) mem

/-- C8: a read immediately after an update reflects the just-appended
intent as `lastAction`; and after 11 sequential updates on one fresh
session id, the intent history has length exactly 10 and holds the 10
most recently appended intents in insertion order. -/
theorem context_update_read (mem : ContextMemory) (intent : Intent)
    (entities : List Entity) (sid : Str) :
    (readContext (updateContext mem intent entities sid) sid).lastAction
        = some intent.name
      ∧ ∀ (p1 p2 p3 p4 p5 p6 p7 p8 p9 p10 p11 : Intent × List Entity) (sid2 : Str),
          (readContext
              (applyUpdates emptyMemory
                [p1, p2, p3, p4, p5, p6, p7, p8, p9, p10, p11] sid2) sid2).intents
            = [p2.1, p3.1, p4.1, p5.1, p6.1, p7.1, p8.1, p9.1, p10.1, p11.1]
          ∧ (readContext
              (applyUpdates emptyMemory
                [p1, p2, p3, p4, p5, p6, p7, p8, p9, p10, p11] sid2) sid2).intents.length
            = 10 := by
  constructor
  · rw [readContext_updateContext]
    split <;> rfl
  · intro p1 p2 p3 p4 p5 p6 p7 p8 p9 p10 p11 sid2
    have h : (readContext
        (applyUpdates emptyMemory
          [p1, p2, p3, p4, p5, p6, p7, p8, p9, p10, p11] sid2) sid2).intents
        = [p2.1, p3.1, p4.1, p5.1, p6.1, p7.1, p8.1, p9.1, p10.1, p11.1] := by
      simp [applyUpdates, updateContext, readContext, emptyMemory, emptyContext,
        sliceLast]
    exact ⟨h, by rw [h]; rfl⟩

end Chatbot
